import Mathlib

/-!
Shallow embedding of the document store of the easy_minutes repository
(the `Storage` object in the File System Access API variant of storage.js).

The store binds an in-memory JSON document (settings, attendees, meetings,
draft) to a user-selected file, loads the file with defensive validation and
per-section merging, and writes the whole document back after every mutation.

JSON values are modelled by the inductive `Json` (numbers as `Int`; the
documents handled by the store carry integer timestamps and strings, so
floating point behaviour is not needed by any claim). JavaScript objects are
modelled as ordered association lists, matching the insertion-order semantics
of JS objects; the object spread operator is modelled by `spreadFields`.
-/

/-- A JSON value, as produced by JSON.parse. Objects are ordered lists of
key/value fields (a parsed object never has duplicate keys). -/
inductive Json where
  | null
  | bool (b : Bool)
  | num (n : Int)
  | str (s : String)
  | arr (elems : List Json)
  | obj (fields : List (String × Json))
deriving Repr

/-- Property lookup in an object field list: the value of the first field
with the given key, or none. -/
def lookupField : List (String × Json) → String → Option Json
  | [], _ => none
  | (k, v) :: rest, key => if k = key then some v else lookupField rest key

/-- JS property access `j.k` on an arbitrary value: defined for objects,
undefined (`none`) otherwise. -/
def jsGet (j : Json) (k : String) : Option Json :=
  match j with
  | .obj kvs => lookupField kvs k
  | _ => none

/-- JS truthiness of a value. -/
def truthy : Json → Bool
  | .null => false
  | .bool b => b
  | .num n => n != 0
  | .str s => s != ""
  | .arr _ => true
  | .obj _ => true

/-- Whether `typeof v` is the string "object" in JS: true for null, arrays
and objects. -/
def jsTypeofObject : Json → Bool
  | .null => true
  | .arr _ => true
  | .obj _ => true
  | _ => false

/-- Whether a value is a JS primitive, on which `===` compares by value. -/
def isPrim : Json → Bool
  | .null => true
  | .bool _ => true
  | .num _ => true
  | .str _ => true
  | _ => false

/-- Strict equality `===` between two possibly-undefined values (`none` is
undefined). Primitives compare by value; two composite values are compared
by reference in JS, modelled conservatively as unequal. -/
def strictEq : Option Json → Option Json → Bool
  | none, none => true
  | some (.null), some (.null) => true
  | some (.bool a), some (.bool b) => a == b
  | some (.num a), some (.num b) => a == b
  | some (.str a), some (.str b) => a == b
  | _, _ => false

/-- The own enumerable fields a value contributes under object spread:
objects give their fields, arrays give index-keyed fields. -/
def ownEnumerableFields : Json → List (String × Json)
  | .obj kvs => kvs
  | .arr xs => xs.enum.map (fun p => (toString p.1, p.2))
  | _ => []

/-- JS object spread `\x7b...a, ...b\x7d`: the keys of `a` in order, each
overridden by the value in `b` when `b` has that key, followed by the keys
of `b` absent from `a`, in the order of `b`. -/
def spreadFields (a b : List (String × Json)) : List (String × Json) :=
  a.map (fun kv => (kv.1, (lookupField b kv.1).getD kv.2)) ++
  b.filter (fun kv => (lookupField a kv.1).isNone)

theorem spreadFields_sample :
    spreadFields [("x", .num 1), ("y", .num 2)] [("y", .num 9), ("z", .num 3)] =
      [("x", .num 1), ("y", .num 9), ("z", .num 3)] := rfl

/-! ### The in-memory document and the store state -/

/-- The in-memory working copy `_data`: the four sections of the document.
The settings section is always a JS object (every assignment in the source
stores an object there), so it is modelled by its field list; attendees and
meetings are always arrays; draft is an arbitrary value (null when absent). -/
structure DocData where
  settings  : List (String × Json)
  attendees : List Json
  meetings  : List Json
  draft     : Json
deriving Repr

/-- The settings record of the empty database template `_empty()`. -/
def emptySettingsFields : List (String × Json) :=
  [("id", .str "app"), ("dateMode", .str "exact"), ("logoDataUrl", .null),
   ("pdfAccentColor", .str "#4b5563"), ("pdfBgColor", .str "#f3f4f6")]

/-- The empty database template `_empty()`. -/
def emptyData : DocData :=
  { settings := emptySettingsFields, attendees := [], meetings := [], draft := .null }

/-- The text of the bound file, as seen by `_loadFromFile`: empty (or
whitespace-only, trimmed away), text that JSON.parse rejects, or a parsed
JSON value. -/
inductive FileContent where
  | emptyText
  | invalidJson
  | json (parsed : Json)
deriving Repr

/-- Errors thrown by the store: no folder connected (`openFile`,
`listJsonFiles`), or no file open (`_save`). -/
inductive StoreError where
  | noFolder
  | notConnected
deriving Repr, DecidableEq

/-- The mutable state of the `Storage` object: whether `_dirHandle` and
`_fileHandle` are set, the active filename, the in-memory document `_data`,
and the content of the bound file on disk. -/
structure StorageState where
  hasDir    : Bool
  connected : Bool
  filename  : Option String
  data      : DocData
  file      : FileContent
deriving Repr

/-- The result of a store operation: the state after it (JS mutations to
`_data` persist even when the subsequent `_save` throws) and the error
surfaced to the caller, if any. -/
structure OpResult where
  state : StorageState
  error : Option StoreError
deriving Repr

/-- Source `init()`: reset `_data` to the empty template (handles untouched). -/
def init (st : StorageState) : StorageState :=
  { st with data := emptyData }

/-- Source `connectFolder()`: acquire a directory handle, clear the file binding. -/
def connectFolder (st : StorageState) : StorageState :=
  { st with hasDir := true, connected := false, filename := none }

/-- Source `_loadFromFile()`: read the bound file into `_data`, with schema
validation. Empty or unparseable text, a non-object root, an array, and an
object with none of the four recognised keys all leave `_data` untouched;
otherwise each section is merged individually. -/
def loadFromFile (cur : DocData) : FileContent → DocData
  | .emptyText => cur
  | .invalidJson => cur
  | .json parsed =>
    match parsed with
    | .obj kvs =>
      if (lookupField kvs "settings").isSome ∨ (lookupField kvs "meetings").isSome ∨
         (lookupField kvs "attendees").isSome ∨ (lookupField kvs "draft").isSome then
        { settings :=
            match lookupField kvs "settings" with
            | some v =>
              if truthy v && jsTypeofObject v then
                spreadFields emptySettingsFields (ownEnumerableFields v)
              else cur.settings
            | none => cur.settings
          attendees :=
            match lookupField kvs "attendees" with
            | some (.arr xs) => xs
            | _ => cur.attendees
          meetings :=
            match lookupField kvs "meetings" with
            | some (.arr xs) => xs
            | _ => cur.meetings
          draft :=
            match lookupField kvs "draft" with
            | some v => v
            | none => cur.draft }
      else cur
    | _ => cur

/-- Source `openFile(filename)`: bind to a JSON file in the connected folder.
Throws when no folder is connected; otherwise appends the ".json" suffix
when missing, resets `_data` to the empty template, and loads the content
of the (possibly just created) file. -/
def openFile (st : StorageState) (filename : String) (content : FileContent) : OpResult :=
  if st.hasDir then
    let fn := if filename.toLower.endsWith ".json" then filename else filename ++ ".json"
    { state := { st with
        connected := true
        filename := some fn
        data := loadFromFile emptyData content
        file := content }
      error := none }
  else
    { state := st, error := some .noFolder }

/-- JSON.stringify of the in-memory document: an object with the four keys
in insertion order. -/
def docToJson (d : DocData) : Json :=
  .obj [("settings", .obj d.settings), ("attendees", .arr d.attendees),
        ("meetings", .arr d.meetings), ("draft", d.draft)]

/-- Source `_save()`: serialize the whole document and overwrite the bound file;
throws when no file is open. -/
def save (st : StorageState) : OpResult :=
  if st.connected then
    { state := { st with file := .json (docToJson st.data) }, error := none }
  else
    { state := st, error := some .notConnected }

/-- Source `saveDraft(meeting)`: store the meeting as the draft with its id forced
to "current", then save. -/
def saveDraft (st : StorageState) (meeting : List (String × Json)) : OpResult :=
  save { st with data := { st.data with
    draft := .obj (spreadFields meeting [("id", .str "current")]) } }

/-- Source `clearDraft()`: set the draft to null, then save. -/
def clearDraft (st : StorageState) : OpResult :=
  save { st with data := { st.data with draft := .null } }

/-- Source `loadDraft()`: the draft, with falsy values normalised to null. -/
def loadDraft (st : StorageState) : Json :=
  if truthy st.data.draft then st.data.draft else .null

/-- The meeting list update of `saveMeeting`: replace the first entry whose
id is strictly equal to the id of the new meeting, or push the meeting at
the end when none matches (findIndex / assignment / push). -/
def upsert (meeting : Json) : List Json → List Json
  | [] => [meeting]
  | x :: xs =>
    if strictEq (jsGet x "id") (jsGet meeting "id") then meeting :: xs
    else x :: upsert meeting xs

/-- Source `saveMeeting(meeting)`: upsert into the meetings list by id, then save. -/
def saveMeeting (st : StorageState) (meeting : Json) : OpResult :=
  save { st with data := { st.data with meetings := upsert meeting st.data.meetings } }

/-- Source `getMeeting(id)`: the first meeting whose id matches, or null. -/
def getMeeting (st : StorageState) (i : Json) : Json :=
  match st.data.meetings.find? (fun m => strictEq (jsGet m "id") (some i)) with
  | some m => m
  | none => .null

/-- Source `deleteMeeting(id)`: drop every meeting whose id strictly equals the
given id, then save. -/
def deleteMeeting (st : StorageState) (i : Json) : OpResult :=
  save { st with data := { st.data with
    meetings := st.data.meetings.filter (fun m => !strictEq (jsGet m "id") (some i)) } }

/-- The sort key of `getAllMeetings`: `finalizedAt || 0` as a number
(the claims only concern meetings whose finalizedAt is a number, null or
absent, where this is exact). -/
def finalizedKey (m : Json) : Int :=
  match jsGet m "finalizedAt" with
  | some (.num n) => n
  | _ => 0

/-- Stable insertion into a list sorted by `finalizedKey` descending. -/
def insertFinalized (x : Json) : List Json → List Json
  | [] => [x]
  | y :: ys =>
    if finalizedKey x < finalizedKey y then y :: insertFinalized x ys
    else x :: y :: ys

/-- The stable descending sort of `getAllMeetings` (JS Array.prototype.sort
is stable; any stable sort realises it). -/
def sortFinalizedDesc : List Json → List Json
  | [] => []
  | x :: xs => insertFinalized x (sortFinalizedDesc xs)

/-- Source `getAllMeetings()`: a copy of the meetings list sorted by finalization
timestamp descending; the state is untouched. -/
def getAllMeetings (st : StorageState) : List Json :=
  sortFinalizedDesc st.data.meetings

/-- Source `saveSettings(s)`: store the settings with the id forced to "app",
then save. -/
def saveSettings (st : StorageState) (s : List (String × Json)) : OpResult :=
  save { st with data := { st.data with
    settings := spreadFields s [("id", .str "app")] } }

/-- Source `loadSettings()`: the settings record. -/
def loadSettings (st : StorageState) : List (String × Json) :=
  st.data.settings

/-- Source `saveAttendees(list)`: replace the attendees list wholesale, then save. -/
def saveAttendees (st : StorageState) (l : List Json) : OpResult :=
  save { st with data := { st.data with attendees := l } }

/-- Source `loadAttendees()`: the attendees list (always an array in the model). -/
def loadAttendees (st : StorageState) : List Json :=
  st.data.attendees

/-! ### Concrete states used by witnesses -/

/-- A state with a folder connected and a file bound, holding the default
document. -/
def stBound : StorageState :=
  { hasDir := true, connected := true, filename := some "db.json",
    data := emptyData, file := .json (docToJson emptyData) }

/-- A state with a folder connected but no file bound yet. -/
def stFolderOnly : StorageState :=
  { hasDir := true, connected := false, filename := none,
    data := emptyData, file := .emptyText }

/-- The fresh state before any connection. -/
def stFresh : StorageState :=
  { hasDir := false, connected := false, filename := none,
    data := emptyData, file := .emptyText }

/-! ### C1: save/load round trip -/

/-- C1: for every valid document (settings a full record containing every
default field, so that merging it over the defaults is the identity;
attendee list; meeting list; draft), saving the in-memory document and
loading the written file back yields the same document exactly. -/
theorem save_load_roundtrip (st : StorageState)
    (hconn : st.connected = true)
    (hset : spreadFields emptySettingsFields st.data.settings = st.data.settings) :
    (save st).error = none ∧
    (save st).state.file = .json (docToJson st.data) ∧
    loadFromFile emptyData ((save st).state.file) = st.data := by
  refine ⟨by simp [save, hconn], by simp [save, hconn], ?_⟩
  simp only [save, hconn, if_true]
  simp [loadFromFile, docToJson, lookupField, truthy, jsTypeofObject,
        ownEnumerableFields, hset]

/-- C1 witness: the round trip at the default document. -/
theorem save_load_roundtrip_witness :
    stBound.connected = true ∧
    spreadFields emptySettingsFields stBound.data.settings = stBound.data.settings ∧
    ((save stBound).error = none ∧
     (save stBound).state.file = .json (docToJson stBound.data) ∧
     loadFromFile emptyData ((save stBound).state.file) = stBound.data) :=
  ⟨rfl, rfl, save_load_roundtrip stBound rfl rfl⟩

/-! ### C2: bind resets before loading -/

/-- C2: a successful bind first resets the document to the defaults, so the
resulting document is the load of the new file content into the default
document, independent of whatever document was in memory before: two binds
of the same content from any two prior states agree. -/
theorem openFile_resets_state (st₁ st₂ : StorageState) (n₁ n₂ : String)
    (c : FileContent) (h₁ : st₁.hasDir = true) (h₂ : st₂.hasDir = true) :
    (openFile st₁ n₁ c).error = none ∧
    (openFile st₁ n₁ c).state.data = loadFromFile emptyData c ∧
    (openFile st₁ n₁ c).state.data = (openFile st₂ n₂ c).state.data := by
  refine ⟨?_, ?_, ?_⟩ <;> simp [openFile, h₁, h₂]

/-- C2 witness: binding the same file content from the fresh default state
and from a state holding a non-trivial document gives the same document. -/
theorem openFile_resets_state_witness :
    stFolderOnly.hasDir = true ∧ stBound.hasDir = true ∧
    ((openFile stFolderOnly "a" .emptyText).error = none ∧
     (openFile stFolderOnly "a" .emptyText).state.data = loadFromFile emptyData .emptyText ∧
     (openFile stFolderOnly "a" .emptyText).state.data =
       (openFile stBound "b" .emptyText).state.data) :=
  ⟨rfl, rfl, openFile_resets_state stFolderOnly stBound "a" "b" .emptyText rfl rfl⟩

/-! ### C3: foreign or unreadable content keeps the defaults -/

/-- File content whose load keeps the defaults: empty text, text that is
not valid JSON, a parsed value that is not an object (arrays included),
or an object with none of the four recognised keys. -/
def foreignContent : FileContent → Bool
  | .emptyText => true
  | .invalidJson => true
  | .json (.obj kvs) =>
    !((lookupField kvs "settings").isSome ∨ (lookupField kvs "meetings").isSome ∨
      (lookupField kvs "attendees").isSome ∨ (lookupField kvs "draft").isSome)
  | .json _ => true

/-- C3: binding a file whose content is empty, unparseable, not an object,
an array, or an object without any recognised key succeeds (no error is
surfaced) and leaves the default document in memory. -/
theorem openFile_foreign_keeps_defaults (st : StorageState) (n : String)
    (c : FileContent) (hdir : st.hasDir = true) (hc : foreignContent c = true) :
    (openFile st n c).error = none ∧ (openFile st n c).state.data = emptyData := by
  refine ⟨by simp [openFile, hdir], ?_⟩
  simp only [openFile, hdir, if_true]
  match c with
  | .emptyText => simp [loadFromFile]
  | .invalidJson => simp [loadFromFile]
  | .json (.null) => simp [loadFromFile]
  | .json (.bool b) => simp [loadFromFile]
  | .json (.num n) => simp [loadFromFile]
  | .json (.str s) => simp [loadFromFile]
  | .json (.arr xs) => simp [loadFromFile]
  | .json (.obj kvs) =>
    simp only [foreignContent, Bool.not_eq_true', decide_eq_false_iff_not] at hc
    simp [loadFromFile, hc]

/-- C3 witness: binding the foreign object file with content
`\x7b"foo": 1\x7d` keeps the default document, without error. -/
theorem openFile_foreign_keeps_defaults_witness :
    stFolderOnly.hasDir = true ∧
    foreignContent (.json (.obj [("foo", .num 1)])) = true ∧
    ((openFile stFolderOnly "db.json" (.json (.obj [("foo", .num 1)]))).error = none ∧
     (openFile stFolderOnly "db.json" (.json (.obj [("foo", .num 1)]))).state.data = emptyData) :=
  ⟨rfl, rfl, openFile_foreign_keeps_defaults stFolderOnly "db.json"
    (.json (.obj [("foo", .num 1)])) rfl rfl⟩

/-! ### C4: independent per-section merge on load -/

/-- Whether a value is a JS array. -/
def isArr : Json → Bool
  | .arr _ => true
  | _ => false

/-- C4: loading a parsed object with at least one recognised key merges each
section independently: the settings become the defaults overridden
field-by-field by the settings object of the file (missing fields inherit
defaults); attendees and meetings are replaced wholesale exactly when the
value is a list and otherwise stay at the empty default; the draft is
replaced wholesale whenever the key is present, its value included when it
is explicit null. -/
theorem load_merges_sections (kvs : List (String × Json))
    (hrec : (lookupField kvs "settings").isSome ∨ (lookupField kvs "meetings").isSome ∨
            (lookupField kvs "attendees").isSome ∨ (lookupField kvs "draft").isSome) :
    (∀ skvs, lookupField kvs "settings" = some (.obj skvs) →
      (loadFromFile emptyData (.json (.obj kvs))).settings =
        spreadFields emptySettingsFields skvs) ∧
    (∀ xs, lookupField kvs "attendees" = some (.arr xs) →
      (loadFromFile emptyData (.json (.obj kvs))).attendees = xs) ∧
    ((∀ v, lookupField kvs "attendees" = some v → isArr v = false) →
      (loadFromFile emptyData (.json (.obj kvs))).attendees = []) ∧
    (∀ xs, lookupField kvs "meetings" = some (.arr xs) →
      (loadFromFile emptyData (.json (.obj kvs))).meetings = xs) ∧
    ((∀ v, lookupField kvs "meetings" = some v → isArr v = false) →
      (loadFromFile emptyData (.json (.obj kvs))).meetings = []) ∧
    (∀ v, lookupField kvs "draft" = some v →
      (loadFromFile emptyData (.json (.obj kvs))).draft = v) := by
  simp only [loadFromFile, if_pos hrec]
  refine ⟨?_, ?_, ?_, ?_, ?_, ?_⟩
  · intro skvs h
    simp [h, truthy, jsTypeofObject, ownEnumerableFields]
  · intro xs h
    simp [h]
  · intro hna
    cases hl : lookupField kvs "attendees" with
    | none => simp [hl, emptyData]
    | some v =>
      have := hna v hl
      cases v <;> simp_all [isArr, emptyData]
  · intro xs h
    simp [h]
  · intro hna
    cases hl : lookupField kvs "meetings" with
    | none => simp [hl, emptyData]
    | some v =>
      have := hna v hl
      cases v <;> simp_all [isArr, emptyData]
  · intro v h
    simp [h]

/-- C4 witness: loading `\x7b"settings": \x7b"dateMode": "calendarWeek"\x7d\x7d`
merges the overridden field over the defaults; the absent sections keep
their defaults through the other conjuncts. -/
theorem load_merges_sections_witness :
    ((lookupField [("settings", Json.obj [("dateMode", .str "calendarWeek")])]
        "settings").isSome ∨
     (lookupField [("settings", Json.obj [("dateMode", .str "calendarWeek")])]
        "meetings").isSome ∨
     (lookupField [("settings", Json.obj [("dateMode", .str "calendarWeek")])]
        "attendees").isSome ∨
     (lookupField [("settings", Json.obj [("dateMode", .str "calendarWeek")])]
        "draft").isSome) ∧
    ((loadFromFile emptyData (.json (.obj
        [("settings", Json.obj [("dateMode", .str "calendarWeek")])]))).settings =
      spreadFields emptySettingsFields [("dateMode", .str "calendarWeek")] ∧
     (loadFromFile emptyData (.json (.obj
        [("settings", Json.obj [("dateMode", .str "calendarWeek")])]))).settings =
      [("id", .str "app"), ("dateMode", .str "calendarWeek"), ("logoDataUrl", .null),
       ("pdfAccentColor", .str "#4b5563"), ("pdfBgColor", .str "#f3f4f6")]) :=
  ⟨Or.inl rfl,
   (load_merges_sections [("settings", Json.obj [("dateMode", .str "calendarWeek")])]
      (Or.inl rfl)).1 [("dateMode", .str "calendarWeek")] rfl,
   rfl⟩

/-! ### C5: meeting upsert by id and delete by id -/

/-- Whether the id property of a value is a primitive or absent: the
fragment on which strict equality of ids is modelled exactly. -/
def idPrimOrAbsent (x : Json) : Bool :=
  match jsGet x "id" with
  | some v => isPrim v
  | none => true

/-- The document is unchanged by the save to disk. -/
theorem save_state_data (st : StorageState) : (save st).state.data = st.data := by
  by_cases h : st.connected = true <;> simp [save, h]

/-- Upsert replaces the matching entry in place. -/
theorem upsert_replace (m e : Json) (pre post : List Json)
    (hpre : ∀ x ∈ pre, strictEq (jsGet x "id") (jsGet m "id") = false)
    (he : strictEq (jsGet e "id") (jsGet m "id") = true) :
    upsert m (pre ++ e :: post) = pre ++ m :: post := by
  induction pre with
  | nil => simp [upsert, he]
  | cons x xs ih =>
    have hx := hpre x (by simp)
    simp only [List.cons_append, upsert, hx, Bool.false_eq_true, if_false,
      List.cons.injEq, true_and]
    exact ih (fun y hy => hpre y (by simp [hy]))

/-- Upsert appends when no entry matches. -/
theorem upsert_append (m : Json) (l : List Json)
    (hl : ∀ x ∈ l, strictEq (jsGet x "id") (jsGet m "id") = false) :
    upsert m l = l ++ [m] := by
  induction l with
  | nil => simp [upsert]
  | cons x xs ih =>
    have hx := hl x (by simp)
    simp only [upsert, hx, Bool.false_eq_true, if_false, List.cons_append,
      List.cons.injEq, true_and]
    exact ih (fun y hy => hl y (by simp [hy]))

/-- C5: on a document whose meeting ids are primitive values (the fragment
where strict equality of ids is modelled exactly), saveMeeting replaces the
entry with the same id in place when one exists and appends otherwise, and
deleteMeeting removes exactly the entries with the given id, keeping the
remaining entries in their relative order. -/
theorem saveMeeting_upsert_deleteMeeting_filter (st : StorageState) (m : Json)
    (_hm : idPrimOrAbsent m = true)
    (_hids : ∀ x ∈ st.data.meetings, idPrimOrAbsent x = true) :
    (∀ pre e post,
      st.data.meetings = pre ++ e :: post →
      (∀ x ∈ pre, strictEq (jsGet x "id") (jsGet m "id") = false) →
      strictEq (jsGet e "id") (jsGet m "id") = true →
      (saveMeeting st m).state.data.meetings = pre ++ m :: post) ∧
    ((∀ x ∈ st.data.meetings, strictEq (jsGet x "id") (jsGet m "id") = false) →
      (saveMeeting st m).state.data.meetings = st.data.meetings ++ [m]) ∧
    (∀ i : Json, isPrim i = true →
      ((deleteMeeting st i).state.data.meetings.Sublist st.data.meetings ∧
       (∀ x, x ∈ (deleteMeeting st i).state.data.meetings ↔
          x ∈ st.data.meetings ∧ strictEq (jsGet x "id") (some i) = false))) := by
  refine ⟨?_, ?_, ?_⟩
  · intro pre e post hsplit hpre he
    simp only [saveMeeting, save_state_data]
    rw [hsplit, upsert_replace m e pre post hpre he]
  · intro hnone
    simp only [saveMeeting, save_state_data]
    exact upsert_append m st.data.meetings hnone
  · intro i _
    simp only [deleteMeeting, save_state_data]
    refine ⟨List.filter_sublist _, ?_⟩
    intro x
    simp [List.mem_filter]

/-- A meeting with id "a", finalized at timestamp 5. -/
def mtgA : Json := .obj [("id", .str "a"), ("finalizedAt", .num 5)]

/-- A meeting with id "b", finalized at timestamp 1. -/
def mtgB : Json := .obj [("id", .str "b"), ("finalizedAt", .num 1)]

/-- A meeting with id "c", finalized at timestamp 3. -/
def mtgC : Json := .obj [("id", .str "c"), ("finalizedAt", .num 3)]

/-- A bound state whose document holds the meetings a, b, c with
finalization timestamps 5, 1, 3. -/
def stMeetings : StorageState :=
  { stBound with data := { emptyData with meetings := [mtgA, mtgB, mtgC] } }

/-- C5 witness: on the list [a, b, c], upserting a meeting with the
existing id "b" replaces it in place at its position. -/
theorem saveMeeting_upsert_deleteMeeting_filter_witness :
    idPrimOrAbsent (.obj [("id", .str "b"), ("n", .num 9)]) = true ∧
    (∀ x ∈ stMeetings.data.meetings, idPrimOrAbsent x = true) ∧
    stMeetings.data.meetings = [mtgA] ++ mtgB :: [mtgC] ∧
    (∀ x ∈ [mtgA],
      strictEq (jsGet x "id") (jsGet (.obj [("id", .str "b"), ("n", .num 9)]) "id") = false) ∧
    strictEq (jsGet mtgB "id") (jsGet (.obj [("id", .str "b"), ("n", .num 9)]) "id") = true ∧
    (saveMeeting stMeetings (.obj [("id", .str "b"), ("n", .num 9)])).state.data.meetings =
      [mtgA] ++ (.obj [("id", .str "b"), ("n", .num 9)]) :: [mtgC] :=
  ⟨rfl, by decide, rfl, by decide, rfl,
   (saveMeeting_upsert_deleteMeeting_filter stMeetings
      (.obj [("id", .str "b"), ("n", .num 9)]) rfl (by decide)).1
     [mtgA] mtgB [mtgC] rfl (by decide) rfl⟩

/-! ### C6: listing meetings sorted by finalization timestamp -/

/-- Whether the finalizedAt property is absent, null or a number: the
fragment on which the numeric sort key is modelled exactly. -/
def finalizedOk (m : Json) : Bool :=
  match jsGet m "finalizedAt" with
  | none => true
  | some .null => true
  | some (.num _) => true
  | _ => false

/-- Stable insertion produces a permutation of consing. -/
theorem insertFinalized_perm (x : Json) (l : List Json) :
    (insertFinalized x l).Perm (x :: l) := by
  induction l with
  | nil => exact List.Perm.refl _
  | cons y ys ih =>
    by_cases h : finalizedKey x < finalizedKey y
    · simp only [insertFinalized, h, if_true]
      exact ((ih.cons y).trans (List.Perm.swap x y ys))
    · simp [insertFinalized, h]

/-- Stable insertion preserves descending order of the sort key. -/
theorem insertFinalized_pairwise (x : Json) (l : List Json)
    (h : l.Pairwise (fun a b => finalizedKey b ≤ finalizedKey a)) :
    (insertFinalized x l).Pairwise (fun a b => finalizedKey b ≤ finalizedKey a) := by
  induction l with
  | nil => simp [insertFinalized]
  | cons y ys ih =>
    rcases List.pairwise_cons.mp h with ⟨hy, hys⟩
    by_cases hlt : finalizedKey x < finalizedKey y
    · simp only [insertFinalized, hlt, if_true]
      refine List.pairwise_cons.mpr ⟨?_, ih hys⟩
      intro z hz
      rcases List.mem_cons.mp ((insertFinalized_perm x ys).mem_iff.mp hz) with hzx | hzy
      · subst hzx; exact le_of_lt hlt
      · exact hy z hzy
    · simp only [insertFinalized, hlt, if_false]
      refine List.pairwise_cons.mpr ⟨?_, h⟩
      intro z hz
      rcases List.mem_cons.mp hz with hzy | hzy
      · subst hzy; exact le_of_not_lt hlt
      · exact le_trans (hy z hzy) (le_of_not_lt hlt)

/-- The sort produces a permutation of the input list. -/
theorem sortFinalizedDesc_perm (l : List Json) : (sortFinalizedDesc l).Perm l := by
  induction l with
  | nil => exact List.Perm.refl _
  | cons x xs ih =>
    exact (insertFinalized_perm x (sortFinalizedDesc xs)).trans (ih.cons x)

/-- The sort output is descending in the sort key. -/
theorem sortFinalizedDesc_pairwise (l : List Json) :
    (sortFinalizedDesc l).Pairwise (fun a b => finalizedKey b ≤ finalizedKey a) := by
  induction l with
  | nil => simp [sortFinalizedDesc]
  | cons x xs ih => exact insertFinalized_pairwise x (sortFinalizedDesc xs) ih

/-- C6: on meetings whose finalizedAt is a number, null or absent (the
fragment where the numeric sort key is exact), getAllMeetings returns a
copy of the stored meetings — a permutation, the stored list itself
untouched — ordered by finalization timestamp descending, so entries with
missing or zero timestamp come after every positively-timestamped entry. -/
theorem getAllMeetings_sorted_desc (st : StorageState)
    (_hfin : ∀ m ∈ st.data.meetings, finalizedOk m = true) :
    (getAllMeetings st).Perm st.data.meetings ∧
    (getAllMeetings st).Pairwise (fun a b => finalizedKey b ≤ finalizedKey a) :=
  ⟨sortFinalizedDesc_perm st.data.meetings, sortFinalizedDesc_pairwise st.data.meetings⟩

/-- C6 witness: for timestamps [5, 1, 3] the result is ordered [5, 3, 1]. -/
theorem getAllMeetings_sorted_desc_witness :
    (∀ m ∈ stMeetings.data.meetings, finalizedOk m = true) ∧
    ((getAllMeetings stMeetings).Perm stMeetings.data.meetings ∧
     (getAllMeetings stMeetings).Pairwise
       (fun a b => finalizedKey b ≤ finalizedKey a)) ∧
    getAllMeetings stMeetings = [mtgA, mtgC, mtgB] :=
  ⟨by decide, getAllMeetings_sorted_desc stMeetings (by decide), rfl⟩

/-! ### C7: finalize clears the draft and records the meeting -/

/-- An upserted meeting is present in the resulting list. -/
theorem mem_upsert_self (m : Json) (l : List Json) : m ∈ upsert m l := by
  induction l with
  | nil => simp [upsert]
  | cons x xs ih =>
    by_cases h : strictEq (jsGet x "id") (jsGet m "id") = true
    · simp [upsert, h]
    · simp only [upsert, h, if_false]
      exact List.mem_cons_of_mem x ih

/-- C7: on a bound store, finalizing a draft — saveMeeting with the draft
content followed by clearDraft — succeeds and leaves a state whose draft is
null and whose meetings list contains that content; and no other section
operation (saveDraft, clearDraft, saveSettings, saveAttendees) ever adds an
entry to the meetings list, so a meeting enters the list only through the
finalize path. -/
theorem finalize_clears_draft_adds_meeting (st : StorageState) (m : Json)
    (hconn : st.connected = true) :
    ((saveMeeting st m).error = none ∧
     (clearDraft (saveMeeting st m).state).error = none ∧
     (clearDraft (saveMeeting st m).state).state.data.draft = .null ∧
     m ∈ (clearDraft (saveMeeting st m).state).state.data.meetings) ∧
    (∀ d : List (String × Json),
      (saveDraft st d).state.data.meetings = st.data.meetings) ∧
    (clearDraft st).state.data.meetings = st.data.meetings ∧
    (∀ s : List (String × Json),
      (saveSettings st s).state.data.meetings = st.data.meetings) ∧
    (∀ l : List Json,
      (saveAttendees st l).state.data.meetings = st.data.meetings) := by
  refine ⟨⟨?_, ?_, ?_, ?_⟩, ?_, ?_, ?_, ?_⟩
  · simp [saveMeeting, save, hconn]
  · simp [saveMeeting, clearDraft, save, hconn]
  · simp [saveMeeting, clearDraft, save, hconn]
  · simp only [saveMeeting, clearDraft, save, hconn, if_true]
    exact mem_upsert_self m st.data.meetings
  · intro d; simp [saveDraft, save_state_data]
  · simp [clearDraft, save_state_data]
  · intro s; simp [saveSettings, save_state_data]
  · intro l; simp [saveAttendees, save_state_data]

/-- C7 witness: finalizing the meeting with id "d" on the bound state with
meetings [a, b, c] clears the draft and records the meeting. -/
theorem finalize_clears_draft_adds_meeting_witness :
    stMeetings.connected = true ∧
    ((saveMeeting stMeetings (.obj [("id", .str "d")])).error = none ∧
     (clearDraft (saveMeeting stMeetings (.obj [("id", .str "d")])).state).error = none ∧
     (clearDraft (saveMeeting stMeetings
        (.obj [("id", .str "d")])).state).state.data.draft = .null ∧
     (Json.obj [("id", .str "d")]) ∈
       (clearDraft (saveMeeting stMeetings
          (.obj [("id", .str "d")])).state).state.data.meetings) :=
  ⟨rfl, (finalize_clears_draft_adds_meeting stMeetings (.obj [("id", .str "d")]) rfl).1⟩

/-! ### C8: mutations require a bound file; save overwrites it wholly -/

/-- C8: every mutating operation invoked while no file is bound surfaces
the not-connected error to the caller; with a file bound, every mutating
operation succeeds and overwrites the bound file with the serialization of
the entire in-memory document. -/
theorem mutations_require_bound_file (st : StorageState) (d : List (String × Json))
    (m i : Json) (s : List (String × Json)) (l : List Json) :
    (st.connected = false →
      ((saveDraft st d).error = some .notConnected ∧
       (clearDraft st).error = some .notConnected ∧
       (saveMeeting st m).error = some .notConnected ∧
       (deleteMeeting st i).error = some .notConnected ∧
       (saveSettings st s).error = some .notConnected ∧
       (saveAttendees st l).error = some .notConnected)) ∧
    (st.connected = true →
      ((saveDraft st d).error = none ∧
       (saveDraft st d).state.file = .json (docToJson (saveDraft st d).state.data) ∧
       (clearDraft st).error = none ∧
       (clearDraft st).state.file = .json (docToJson (clearDraft st).state.data) ∧
       (saveMeeting st m).error = none ∧
       (saveMeeting st m).state.file = .json (docToJson (saveMeeting st m).state.data) ∧
       (deleteMeeting st i).error = none ∧
       (deleteMeeting st i).state.file = .json (docToJson (deleteMeeting st i).state.data) ∧
       (saveSettings st s).error = none ∧
       (saveSettings st s).state.file = .json (docToJson (saveSettings st s).state.data) ∧
       (saveAttendees st l).error = none ∧
       (saveAttendees st l).state.file = .json (docToJson (saveAttendees st l).state.data))) := by
  constructor
  · intro hnc
    refine ⟨?_, ?_, ?_, ?_, ?_, ?_⟩ <;>
      simp [saveDraft, clearDraft, saveMeeting, deleteMeeting, saveSettings,
            saveAttendees, save, hnc]
  · intro hc
    refine ⟨?_, ?_, ?_, ?_, ?_, ?_, ?_, ?_, ?_, ?_, ?_, ?_⟩ <;>
      simp [saveDraft, clearDraft, saveMeeting, deleteMeeting, saveSettings,
            saveAttendees, save, hc]

/-- C8 witness: clearDraft on the unbound fresh state fails not-connected;
saveAttendees on a bound state succeeds and writes the full document. -/
theorem mutations_require_bound_file_witness :
    stFresh.connected = false ∧ stBound.connected = true ∧
    (clearDraft stFresh).error = some .notConnected ∧
    (saveAttendees stBound [.str "x"]).error = none ∧
    (saveAttendees stBound [.str "x"]).state.file =
      .json (docToJson (saveAttendees stBound [.str "x"]).state.data) :=
  ⟨rfl, rfl,
   ((mutations_require_bound_file stFresh [] .null .null [] [.str "x"]).1 rfl).2.1,
   ((mutations_require_bound_file stBound [] .null .null [] [.str "x"]).2 rfl).2.2.2.2.2.2.2.2.2.2.1,
   ((mutations_require_bound_file stBound [] .null .null [] [.str "x"]).2 rfl).2.2.2.2.2.2.2.2.2.2.2⟩

/-! ### C10: section operations do not touch the other sections -/

/-- C10: each section operation leaves the other three sections unchanged:
the draft operations touch only the draft, the meeting operations only the
meetings, saveSettings only the settings, saveAttendees only the attendees
(this holds whether or not a file is bound, since only the disk write can
fail). -/
theorem section_ops_frame (st : StorageState) (d : List (String × Json))
    (m i : Json) (s : List (String × Json)) (l : List Json) :
    ((saveDraft st d).state.data.settings = st.data.settings ∧
     (saveDraft st d).state.data.attendees = st.data.attendees ∧
     (saveDraft st d).state.data.meetings = st.data.meetings) ∧
    ((clearDraft st).state.data.settings = st.data.settings ∧
     (clearDraft st).state.data.attendees = st.data.attendees ∧
     (clearDraft st).state.data.meetings = st.data.meetings) ∧
    ((saveMeeting st m).state.data.settings = st.data.settings ∧
     (saveMeeting st m).state.data.attendees = st.data.attendees ∧
     (saveMeeting st m).state.data.draft = st.data.draft) ∧
    ((deleteMeeting st i).state.data.settings = st.data.settings ∧
     (deleteMeeting st i).state.data.attendees = st.data.attendees ∧
     (deleteMeeting st i).state.data.draft = st.data.draft) ∧
    ((saveSettings st s).state.data.attendees = st.data.attendees ∧
     (saveSettings st s).state.data.meetings = st.data.meetings ∧
     (saveSettings st s).state.data.draft = st.data.draft) ∧
    ((saveAttendees st l).state.data.settings = st.data.settings ∧
     (saveAttendees st l).state.data.meetings = st.data.meetings ∧
     (saveAttendees st l).state.data.draft = st.data.draft) := by
  refine ⟨⟨?_, ?_, ?_⟩, ⟨?_, ?_, ?_⟩, ⟨?_, ?_, ?_⟩, ⟨?_, ?_, ?_⟩, ⟨?_, ?_, ?_⟩, ⟨?_, ?_, ?_⟩⟩ <;>
    simp [saveDraft, clearDraft, saveMeeting, deleteMeeting, saveSettings,
          saveAttendees, save_state_data]

/-! ### C9: fixed singleton ids -/

/-- Lookup distributes over appended field lists: the left list wins. -/
theorem lookupField_append (a b : List (String × Json)) (k : String) :
    lookupField (a ++ b) k =
      match lookupField a k with
      | some w => some w
      | none => lookupField b k := by
  induction a with
  | nil => simp [lookupField]
  | cons x rest ih =>
    cases x with
    | mk xk xv =>
      by_cases hx : xk = k
      · simp [lookupField, hx]
      · simp [lookupField, hx, ih]

/-- Lookup in the overridden-keys part of a spread. -/
theorem lookupField_map_spread (a b : List (String × Json)) (k : String) :
    lookupField (a.map (fun kv => (kv.1, (lookupField b kv.1).getD kv.2))) k =
      match lookupField a k with
      | some w => some ((lookupField b k).getD w)
      | none => none := by
  induction a with
  | nil => simp [lookupField]
  | cons x rest ih =>
    cases x with
    | mk xk xv =>
      by_cases hx : xk = k
      · subst hx; simp [lookupField]
      · simp [lookupField, hx, ih]

/-- Spreading a single-pair override into an object makes its key map to
the overriding value. -/
theorem lookupField_spread_pair (a : List (String × Json)) (k : String) (v : Json) :
    lookupField (spreadFields a [(k, v)]) k = some v := by
  unfold spreadFields
  rw [lookupField_append, lookupField_map_spread]
  cases ha : lookupField a k with
  | some w => simp [lookupField]
  | none => simp [lookupField, List.filter, ha]

/-- The fixed-id invariant of C9: the settings record carries the id "app"
and the draft, when present, carries the id "current". -/
def idInvariant (d : DocData) : Prop :=
  lookupField d.settings "id" = some (.str "app") ∧
  (d.draft = .null ∨
   ∃ kvs, d.draft = .obj kvs ∧ lookupField kvs "id" = some (.str "current"))

/-- C9 counterexample: the bind operation is a store operation that loads a
settings record whose id is not "app" — the file
`\x7b"settings": \x7b"id": "evil"\x7d\x7d` binds to a document whose settings id
is "evil". -/
theorem openFile_can_import_foreign_settings_id :
    lookupField ((openFile stFolderOnly "db.json"
        (.json (.obj [("settings", .obj [("id", .str "evil")])]))).state.data.settings)
      "id" = some (.str "evil") ∧
    some (Json.str "evil") ≠ some (Json.str "app") :=
  ⟨rfl, by simp⟩

/-- C9 (amended): saveSettings stores its input with the id forced to "app"
and saveDraft stores its input with the id forced to "current", regardless
of any id field on the input; the initial empty document satisfies the
fixed-id invariant, and every mutating section operation preserves it. The
bind/load operation is excluded: it can import foreign ids from the file. -/
theorem fixed_ids_forced_and_preserved :
    idInvariant emptyData ∧
    (∀ (st : StorageState) (d : List (String × Json)),
      ∃ kvs, (saveDraft st d).state.data.draft = .obj kvs ∧
        lookupField kvs "id" = some (.str "current")) ∧
    (∀ (st : StorageState) (s : List (String × Json)),
      lookupField (saveSettings st s).state.data.settings "id" = some (.str "app")) ∧
    (∀ (st : StorageState) (d : List (String × Json)) (m i : Json)
       (s : List (String × Json)) (l : List Json),
      idInvariant st.data →
      (idInvariant (saveDraft st d).state.data ∧
       idInvariant (clearDraft st).state.data ∧
       idInvariant (saveMeeting st m).state.data ∧
       idInvariant (deleteMeeting st i).state.data ∧
       idInvariant (saveSettings st s).state.data ∧
       idInvariant (saveAttendees st l).state.data)) := by
  refine ⟨⟨rfl, Or.inl rfl⟩, ?_, ?_, ?_⟩
  · intro st d
    refine ⟨spreadFields d [("id", .str "current")], ?_, ?_⟩
    · simp [saveDraft, save_state_data]
    · exact lookupField_spread_pair d "id" (.str "current")
  · intro st s
    simp only [saveSettings, save_state_data]
    exact lookupField_spread_pair s "id" (.str "app")
  · intro st d m i s l hinv
    rcases hinv with ⟨hset, hdraft⟩
    refine ⟨⟨?_, ?_⟩, ⟨?_, ?_⟩, ⟨?_, ?_⟩, ⟨?_, ?_⟩, ⟨?_, ?_⟩, ⟨?_, ?_⟩⟩
    · simpa [saveDraft, save_state_data] using hset
    · refine Or.inr ⟨spreadFields d [("id", .str "current")], ?_, ?_⟩
      · simp [saveDraft, save_state_data]
      · exact lookupField_spread_pair d "id" (.str "current")
    · simpa [clearDraft, save_state_data] using hset
    · exact Or.inl (by simp [clearDraft, save_state_data])
    · simpa [saveMeeting, save_state_data] using hset
    · simpa [saveMeeting, save_state_data] using hdraft
    · simpa [deleteMeeting, save_state_data] using hset
    · simpa [deleteMeeting, save_state_data] using hdraft
    · simp only [saveSettings, save_state_data]
      exact lookupField_spread_pair s "id" (.str "app")
    · simpa [saveSettings, save_state_data] using hdraft
    · simpa [saveAttendees, save_state_data] using hset
    · simpa [saveAttendees, save_state_data] using hdraft

/-- C9 witness: the invariant preservation applied at the bound default
state, with a draft and settings carrying foreign input ids. -/
theorem fixed_ids_forced_and_preserved_witness :
    idInvariant stBound.data ∧
    (idInvariant (saveDraft stBound [("id", .str "mine")]).state.data ∧
     idInvariant (clearDraft stBound).state.data ∧
     idInvariant (saveMeeting stBound .null).state.data ∧
     idInvariant (deleteMeeting stBound .null).state.data ∧
     idInvariant (saveSettings stBound [("id", .str "mine")]).state.data ∧
     idInvariant (saveAttendees stBound []).state.data) :=
  ⟨⟨rfl, Or.inl rfl⟩,
   fixed_ids_forced_and_preserved.2.2.2 stBound [("id", .str "mine")] .null .null
     [("id", .str "mine")] [] ⟨rfl, Or.inl rfl⟩⟩

